import Mathlib

/-!
Shallow embedding of `create_iris_kml.py` (Google-Earth-focal-mechanisms).

Modelling conventions:
* Python floats are modelled as exact rationals (`ℚ`).
* `float(tok)` is modelled by `pyFloat?` on decimal literals; a `none`
  result stands for the `ValueError` raised by Python.
* Out-of-range list indexing (Python `IndexError`) is modelled with
  `List.getElem?` returning `none`.
* Python local variables that the bare `except` handler may read before
  their first assignment are modelled by an environment of `Option`s
  (`Env`); `none` stands for an unbound name (reading it raises
  `NameError`, caught by the inner `except`).
* String primitives (`str.strip`, `str.split`, `str.startswith`) are
  implemented on `List Char` by structural recursion so that every
  definition evaluates inside the kernel.
* The external collaborators excluded by the spec (diagram rendering via
  `beachball`, the KML container library, file I/O, progress display)
  are modelled as non-failing: a render request is recorded as a value,
  and the output document is the accumulated list of points.
-/

/-- Numeric value of a list of decimal digit characters. -/
def digitsVal (l : List Char) : ℕ :=
  l.foldl (fun a c => 10 * a + (c.toNat - 48)) 0

/-- Exponent suffix of a Python float literal: optional sign, then digits. -/
def parseExp : List Char → Option ℤ
  | '+' :: r => if r ≠ [] ∧ r.all Char.isDigit then some ((digitsVal r : ℤ)) else none
  | '-' :: r => if r ≠ [] ∧ r.all Char.isDigit then some (-(digitsVal r : ℤ)) else none
  | r => if r ≠ [] ∧ r.all Char.isDigit then some ((digitsVal r : ℤ)) else none

/-- The rational `num / den` scaled by `10 ^ k`. -/
def ratScale (num : ℤ) (den : ℕ) (k : ℤ) : ℚ :=
  if 0 ≤ k then mkRat (num * ((10 ^ k.toNat : ℕ) : ℤ)) den
  else mkRat num (den * 10 ^ (-k).toNat)

/-- Modelled from the Python builtin `float(...)` applied to a
whitespace-free token: accepts decimal literals (optional sign, integer
part, optional fractional part, optional exponent); returns `none` where
Python raises `ValueError`.  The `inf`/`nan` spellings are outside the
model. -/
def pyFloat? (s : String) : Option ℚ :=
  let cs0 := s.data
  let sgn : ℤ := if cs0.head? = some '-' then -1 else 1
  let cs := if cs0.head? = some '-' ∨ cs0.head? = some '+' then cs0.tail else cs0
  let ip := cs.takeWhile Char.isDigit
  let rest := cs.dropWhile Char.isDigit
  match rest with
  | [] => if ip = [] then none else some (mkRat (sgn * (digitsVal ip : ℤ)) 1)
  | '.' :: r =>
    let fp := r.takeWhile Char.isDigit
    let rest2 := r.dropWhile Char.isDigit
    if ip = [] ∧ fp = [] then none
    else
      let num : ℤ := sgn * ((digitsVal ip * 10 ^ fp.length + digitsVal fp : ℕ) : ℤ)
      let den : ℕ := 10 ^ fp.length
      match rest2 with
      | [] => some (mkRat num den)
      | 'e' :: r2 => (parseExp r2).map (fun k => ratScale num den k)
      | 'E' :: r2 => (parseExp r2).map (fun k => ratScale num den k)
      | _ => none
  | 'e' :: r2 =>
      if ip = [] then none
      else (parseExp r2).map (fun k => ratScale (sgn * (digitsVal ip : ℤ)) 1 k)
  | 'E' :: r2 =>
      if ip = [] then none
      else (parseExp r2).map (fun k => ratScale (sgn * (digitsVal ip : ℤ)) 1 k)
  | _ => none

/-- Helper for the token splitter: scan the characters, the accumulator holding the
current token reversed. -/
def tokenizeAux : List Char → List Char → List String
  | [], acc => if acc = [] then [] else [⟨acc.reverse⟩]
  | c :: cs, acc =>
    if c.isWhitespace then
      if acc = [] then tokenizeAux cs [] else ⟨acc.reverse⟩ :: tokenizeAux cs []
    else tokenizeAux cs (c :: acc)

/-- Python `str.split()` with no argument: split on whitespace runs and
discard empty pieces. -/
def splitTokens (s : String) : List String :=
  tokenizeAux s.data []

/-- Python `str.strip()`: drop whitespace from both ends. -/
def pyStrip (s : String) : String :=
  ⟨((s.data.dropWhile Char.isWhitespace).reverse.dropWhile Char.isWhitespace).reverse⟩

/-- Test whether the first list is an initial segment of the second. -/
def beginsWith : List Char → List Char → Bool
  | [], _ => true
  | _ :: _, [] => false
  | p :: ps, c :: cs => p == c && beginsWith ps cs

/-- Source line 86: `clean_line.startswith(('PDEQ', 'PDEW', 'SWEQ'))`. -/
def isSentinel (s : String) : Bool :=
  beginsWith "PDEQ".data s.data || beginsWith "PDEW".data s.data ||
    beginsWith "SWEQ".data s.data

/-- Source lines 13-29: `classify_and_color_by_rake`; the chained Python
comparisons `-120 <= rake <= -60` etc. become conjunctions. -/
def classify_and_color_by_rake (rake : ℚ) : String × String :=
  if -120 ≤ rake ∧ rake ≤ -60 then ("Normal", "green")
  else if 60 ≤ rake ∧ rake ≤ 120 then ("Thrust", "red")
  else if (-30 ≤ rake ∧ rake ≤ 30) ∨ 150 ≤ rake ∨ rake ≤ -150 then ("Strike-Slip", "blue")
  else ("Oblique", "yellow")

/-- The grouping loop of source lines 80-91, with `evs` the accumulated
`events` list and `cur` the `current_event` list. -/
def groupAux (evs : List (List String)) (cur : List String) :
    List String → List (List String)
  | [] => if cur = [] then evs else evs ++ [cur]
  | l :: ls =>
    let c := pyStrip l
    if c = "" then groupAux evs cur ls
    else if isSentinel c ∧ cur ≠ [] then groupAux (evs ++ [cur]) [c] ls
    else groupAux evs (cur ++ [c]) ls

/-- Source lines 80-91: group raw lines into per-event chunks. -/
def group_events (lines : List String) : List (List String) :=
  groupAux [] [] lines

/-- The Python locals read by the bare `except` handler (source lines
145-157), each `none` until its first assignment in some iteration of the
processing loop; the values persist across iterations. -/
structure Env where
  time_str : Option String
  lat : Option ℚ
  lon : Option ℚ
  depth : Option ℚ
  mag : Option ℚ
  location : Option String
deriving DecidableEq

/-- The values parsed from the first line of a chunk (source lines
105-111). -/
structure PdeFields where
  time_str : String
  lat : ℚ
  lon : ℚ
  depth : ℚ
  mag : ℚ
  location : String
deriving DecidableEq

/-- The data interpolated into a placemark description (source lines
134-139 and 149-153); numeric-to-text formatting is abstracted away, the
fields themselves are kept.  `fault_type` and `sdr` are present only for
fault-type-folder points. -/
structure Descr where
  fault_type : Option String
  time_str : String
  mag : ℚ
  depth : ℚ
  lat : ℚ
  lon : ℚ
  sdr : Option (ℚ × ℚ × ℚ)
deriving DecidableEq

/-- A KML placemark: folder name, the magnitude shown in the point name
`M {mag}`, the icon href, and the description/coords, which are `none`
when the corresponding assignment never executed. -/
structure Point where
  folder : String
  nameMag : ℚ
  icon_href : String
  descr : Option Descr
  coords : Option (ℚ × ℚ × ℚ)
deriving DecidableEq

/-- A request to the external `beachball` renderer (source line 126). -/
structure Render where
  strike : ℚ
  dip : ℚ
  rake : ℚ
  facecolor : String
  outfile : String
deriving DecidableEq

/-- The mutable state of the processing loop (source lines 74-77 and the
KML folder contents). -/
structure RunState where
  points : List Point
  renders : List Render
  env : Env
  with_fm : ℕ
  without_fm : ℕ
  skipped : ℕ
deriving DecidableEq

/-- The folder name for events without focal mechanisms (source line 72). -/
def fallbackName : String := "Events without Focal Mechanisms"

/-- The generic marker used in the fallback branch (source line 148). -/
def redCircle : String := "http://maps.google.com/mapfiles/kml/paddle/red-circle.png"

/-- The `folder_map` dictionary of source lines 65-70, keyed by the
fault-type label returned by the classifier. -/
def folder_map (fault_type : String) : String :=
  if fault_type = "Normal" then "Normal"
  else if fault_type = "Thrust" then "Thrust (Reverse)"
  else if fault_type = "Strike-Slip" then "Strike-Slip"
  else "Oblique"

/-- Source lines 105-111: the sequential first-line field assignments.
Returns the environment as left by the (possibly partial) execution and
`some` of the parsed fields when every assignment succeeded.  Each
`getElem?`/`pyFloat?` failure models the `IndexError`/`ValueError` that
aborts the remaining assignments. -/
def parsePde (env : Env) (parts : List String) : Env × Option PdeFields :=
  match parts[1]?, parts[2]? with
  | some p1, some p2 =>
    let t := p1 ++ " " ++ p2
    match (parts[3]?).bind pyFloat? with
    | some la =>
      match (parts[4]?).bind pyFloat? with
      | some lo =>
        match (parts[5]?).bind pyFloat? with
        | some d =>
          match (parts[7]?).bind pyFloat? with
          | some m =>
            let loc := String.intercalate " " (parts.drop 8)
            (⟨some t, some la, some lo, some d, some m, some loc⟩,
              some ⟨t, la, lo, d, m, loc⟩)
          | none => ({ env with
                        time_str := some t, lat := some la,
                        lon := some lo, depth := some d }, none)
        | none => ({ env with
                      time_str := some t, lat := some la,
                      lon := some lo }, none)
      | none => ({ env with time_str := some t, lat := some la }, none)
    | none => ({ env with time_str := some t }, none)
  | _, _ => (env, none)

/-- Source lines 113-121: the strike/dip/rake extraction from the fifth
line.  `some (strike, dip, rake)` exactly when the token-count guard
passes, all three tokens parse, and not both strike and dip are zero;
`none` in every case in which the Python code raises (token count below
6, a `float` failure, or the explicit `raise` for strike = dip = 0). -/
def sdrOutcome (sdr_parts : List String) : Option (ℚ × ℚ × ℚ) :=
  if 6 ≤ sdr_parts.length then
    match pyFloat? (sdr_parts.getD (sdr_parts.length - 6) ""),
          pyFloat? (sdr_parts.getD (sdr_parts.length - 5) ""),
          pyFloat? (sdr_parts.getD (sdr_parts.length - 4) "") with
    | some strike, some dip, some rake =>
      if strike = 0 ∧ dip = 0 then none else some (strike, dip, rake)
    | _, _, _ => none
  else none

/-- Source lines 145-157: the bare `except` handler.  Reading `mag` while
unbound raises `NameError` before the point is created (inner `except`:
counted as skipped, no point).  If `mag` is bound the point is created;
the later description interpolation reads `time_str`, `depth`, `lat`,
`lon`, and if one of those is unbound the point stays in the folder with
no description or coords and the event is counted as skipped. -/
def fallback (st : RunState) : RunState :=
  match st.env.mag with
  | none => { st with skipped := st.skipped + 1 }
  | some m =>
    match st.env.time_str, st.env.depth, st.env.lat, st.env.lon with
    | some t, some d, some la, some lo =>
      { st with
        points := st.points ++ [⟨fallbackName, m, redCircle,
          some ⟨none, t, m, d, la, lo, none⟩, some (lo, la, -d * 1000)⟩],
        without_fm := st.without_fm + 1 }
    | _, _, _, _ =>
      { st with
        points := st.points ++ [⟨fallbackName, m, redCircle, none, none⟩],
        skipped := st.skipped + 1 }

/-- Source lines 96-157: the body of the processing loop for the chunk at
index `i`. -/
def process_event (st : RunState) (i : ℕ) (event_lines : List String) : RunState :=
  if event_lines.length < 5 then { st with skipped := st.skipped + 1 }
  else
    match event_lines[0]?, event_lines[4]? with
    | some pde_line, some sdr_line =>
      match parsePde st.env (splitTokens pde_line) with
      | (env1, none) => fallback { st with env := env1 }
      | (env1, some f) =>
        match sdrOutcome (splitTokens sdr_line) with
        | none => fallback { st with env := env1 }
        | some (strike, dip, rake) =>
          let fc := classify_and_color_by_rake rake
          let outfile := "assets/event_" ++ toString (i + 1) ++ "_fm.png"
          { st with
            env := env1,
            renders := st.renders ++ [⟨strike, dip, rake, fc.2, outfile⟩],
            points := st.points ++ [⟨folder_map fc.1, f.mag, outfile,
              some ⟨some fc.1, f.time_str, f.mag, f.depth, f.lat, f.lon,
                some (strike, dip, rake)⟩,
              some (f.lon, f.lat, -f.depth * 1000)⟩],
            with_fm := st.with_fm + 1 }
    | _, _ => fallback st

/-- The processing loop over all chunks (source line 96). -/
def process_all (st : RunState) (i : ℕ) : List (List String) → RunState
  | [] => st
  | e :: es => process_all (process_event st i e) (i + 1) es

/-- State before the loop: empty folders, all counters zero, all of the
handler-visible locals unbound. -/
def init_state : RunState :=
  ⟨[], [], ⟨none, none, none, none, none, none⟩, 0, 0, 0⟩

/-- The state after processing all chunks grouped from `lines`. -/
def run_state (lines : List String) : RunState :=
  process_all init_state 0 (group_events lines)

/-- The document description of source lines 47-55 (the embedded HTML
legend). -/
def documentDescription : String :=
  "<![CDATA[" ++
  "<b>Beachball Color Legend (by Fault Type)</b><br>" ++
  "<br><font color=\"red\">■</font> Normal" ++
  "<br><font color=\"blue\">■</font> Thrust (Reverse)" ++
  "<br><font color=\"green\">■</font> Strike-Slip" ++
  "<br><font color=\"yellow\">■</font> Oblique" ++
  "]]>"

/-- The (label, swatch color) pairs exactly as they appear, in order, in
`documentDescription` (source lines 50-53). -/
def legendPairs : List (String × String) :=
  [("Normal", "red"), ("Thrust (Reverse)", "blue"),
   ("Strike-Slip", "green"), ("Oblique", "yellow")]

/-- The single output document (source line 160): the legend plus the
accumulated placemarks.  The document name and file path are abstracted. -/
structure KmlDoc where
  description : String
  points : List Point
deriving DecidableEq

/-- Model of `kml.save(...)`: serialize the accumulated state. -/
def kml_save (st : RunState) : KmlDoc :=
  ⟨documentDescription, st.points⟩

/-- The whole run of `create_kml_from_custom_ndk` on the given input
lines. -/
def runProgram (lines : List String) : KmlDoc :=
  kml_save (run_state lines)

/-- The list of documents written during one run: `kml.save` is executed
exactly once, unconditionally, after the loop (source line 160). -/
def saved_documents (lines : List String) : List KmlDoc :=
  [runProgram lines]

/-- The stripped non-blank input lines, in order. -/
def cleanLines (lines : List String) : List String :=
  (lines.map pyStrip).filter (fun s => s != "")

/-- The first line of the chunk exists and is a sentinel line. -/
def headSent : List String → Prop
  | [] => False
  | a :: _ => isSentinel a = true

/-- No line of the chunk other than the first is a sentinel line. -/
def noMidSent (c : List String) : Prop :=
  ∀ x ∈ c.tail, ¬ isSentinel x = true

/-- The handler-visibility invariant: whenever `mag` is bound, so are all
the locals assigned before it in source lines 106-109. -/
def Env.wf (env : Env) : Prop :=
  env.mag.isSome →
    env.time_str.isSome ∧ env.lat.isSome ∧ env.lon.isSome ∧ env.depth.isSome

/-- A fully-built placemark: description present and coordinates equal to
`(lon, lat, -depth * 1000)` over the description's fields. -/
def GoodPoint (p : Point) : Prop :=
  ∃ d : Descr, p.descr = some d ∧ p.coords = some (d.lon, d.lat, -d.depth * 1000)

/-- Number of fault-type-folder points in a list. -/
def fmCount (ps : List Point) : ℕ :=
  (ps.filter (fun p => !(p.folder == fallbackName))).length

/-- Number of fallback-folder points in a list. -/
def fbCount (ps : List Point) : ℕ :=
  (ps.filter (fun p => p.folder == fallbackName)).length

/-- A non-sentinel line followed by a sentinel line. -/
def exLinesJunk : List String := ["junk", "PDEQ x"]

/-- A single event chunk of one line (below the five-line minimum). -/
def exLinesShort : List String := ["PDEQ x"]

/-- One five-line chunk whose first-line latitude token does not parse. -/
def exLinesBadLat : List String :=
  ["PDEQ 2020/01/01 00:00:00 BAD 20.0 30.0 X 5.0 LOC", "a", "b", "c", "45 60 90 0 0 0"]

/-- One well-formed five-line chunk whose depth token is `0.0`. -/
def exLinesZeroDepth : List String :=
  ["PDEQ 2020/01/01 00:00:00 10.0 20.0 0.0 X 5.0 LOC", "a", "b", "c", "45 60 90 0 0 0"]

/-- One five-line chunk with a well-formed first line but only three
tokens on the fifth line. -/
def exLinesNoFM : List String :=
  ["PDEQ 2020/01/01 00:00:00 10.0 20.0 3.0 X 5.0 LOC", "a", "b", "c", "1 2 3"]

/-- One fully well-formed five-line chunk (strike 45, dip 60, rake 90). -/
def exLinesGood : List String :=
  ["PDEQ 2020/01/01 00:00:00 10.0 20.0 3.0 X 5.0 LOC", "a", "b", "c", "45 60 90 0 0 0"]

/-- Outcome shape: the chunk was counted as skipped and nothing else
changed. -/
def StepSkip (st r : RunState) : Prop :=
  r.points = st.points ∧ r.renders = st.renders ∧ r.with_fm = st.with_fm ∧
  r.without_fm = st.without_fm ∧ r.skipped = st.skipped + 1

/-- Outcome shape: exactly one fully-built red-circle point was appended
to the fallback folder. -/
def StepFallback (st r : RunState) : Prop :=
  ∃ p, r.points = st.points ++ [p] ∧ p.folder = fallbackName ∧
    p.icon_href = redCircle ∧ GoodPoint p ∧ r.renders = st.renders ∧
    r.with_fm = st.with_fm ∧ r.without_fm = st.without_fm + 1 ∧ r.skipped = st.skipped

/-- Outcome shape: exactly one fully-built fault-type-folder point was
appended, together with one render request whose face color is the
classifier color of its own rake. -/
def StepFm (st r : RunState) : Prop :=
  ∃ p rd, r.points = st.points ++ [p] ∧ p.folder ≠ fallbackName ∧ GoodPoint p ∧
    r.renders = st.renders ++ [rd] ∧
    rd.facecolor = (classify_and_color_by_rake rd.rake).2 ∧
    r.with_fm = st.with_fm + 1 ∧ r.without_fm = st.without_fm ∧ r.skipped = st.skipped

/-- The placemark produced by the fully well-formed example chunk. -/
def exPointGood : Point :=
  ⟨"Thrust (Reverse)", 5, "assets/event_1_fm.png",
    some ⟨some "Thrust", "2020/01/01 00:00:00", 5, 3, 10, 20, some (45, 60, 90)⟩,
    some (20, 10, -(3 : ℚ) * 1000)⟩

/-- The placemark produced by the zero-depth example chunk. -/
def exPointZero : Point :=
  ⟨"Thrust (Reverse)", 5, "assets/event_1_fm.png",
    some ⟨some "Thrust", "2020/01/01 00:00:00", 5, 0, 10, 20, some (45, 60, 90)⟩,
    some (20, 10, -(0 : ℚ) * 1000)⟩

/-- C2: the classifier is a total function of the rake alone; on each of
the three named ranges it returns the corresponding (fault type, color)
pair, and on everything else it returns the Oblique pair. -/
theorem c2_classifier_four_way (rake : ℚ) :
    ((-120 ≤ rake ∧ rake ≤ -60) →
      classify_and_color_by_rake rake = ("Normal", "green")) ∧
    ((60 ≤ rake ∧ rake ≤ 120) →
      classify_and_color_by_rake rake = ("Thrust", "red")) ∧
    (((-30 ≤ rake ∧ rake ≤ 30) ∨ 150 ≤ rake ∨ rake ≤ -150) →
      classify_and_color_by_rake rake = ("Strike-Slip", "blue")) ∧
    ((¬(-120 ≤ rake ∧ rake ≤ -60) ∧ ¬(60 ≤ rake ∧ rake ≤ 120) ∧
        ¬((-30 ≤ rake ∧ rake ≤ 30) ∨ 150 ≤ rake ∨ rake ≤ -150)) →
      classify_and_color_by_rake rake = ("Oblique", "yellow")) := by
  refine ⟨fun h => ?_, fun h => ?_, fun h => ?_, fun h => ?_⟩
  · simp only [classify_and_color_by_rake, if_pos h]
  · rw [classify_and_color_by_rake, if_neg (by rintro ⟨a, b⟩; linarith [h.1, h.2]),
      if_pos h]
  · rw [classify_and_color_by_rake,
      if_neg (by rintro ⟨a, b⟩; rcases h with ⟨c, d⟩ | c | c <;> linarith),
      if_neg (by rintro ⟨a, b⟩; rcases h with ⟨c, d⟩ | c | c <;> linarith),
      if_pos h]
  · rw [classify_and_color_by_rake, if_neg h.1, if_neg h.2.1, if_neg h.2.2]

/-- Witness for C2 at rake −90 (Normal) and rake 45 (Oblique). -/
theorem c2_classifier_four_way_witness :
    classify_and_color_by_rake (-90) = ("Normal", "green") ∧
    classify_and_color_by_rake 45 = ("Oblique", "yellow") :=
  ⟨(c2_classifier_four_way (-90)).1 (by norm_num),
   (c2_classifier_four_way 45).2.2.2 (by norm_num)⟩

lemma groupAux_flatten (ls : List String) : ∀ evs cur,
    (groupAux evs cur ls).flatten = evs.flatten ++ cur ++ cleanLines ls := by
  induction ls with
  | nil =>
    intro evs cur
    by_cases hc : cur = []
    · simp [groupAux, hc, cleanLines]
    · simp [groupAux, hc, cleanLines]
  | cons l ls ih =>
    intro evs cur
    by_cases h0 : pyStrip l = ""
    · simp [groupAux, h0, cleanLines, ih, List.filter_cons]
    · by_cases h1 : isSentinel (pyStrip l) ∧ cur ≠ []
      · simp [groupAux, h0, h1, cleanLines, ih, List.filter_cons]
      · simp [groupAux, h0, h1, cleanLines, ih, List.filter_cons]

lemma groupAux_struct (ls : List String) : ∀ evs cur,
    (∀ c ∈ evs, c ≠ []) →
    (∀ c ∈ evs.tail, headSent c) →
    (∀ c ∈ evs, noMidSent c) →
    noMidSent cur →
    (evs ≠ [] → cur ≠ [] ∧ headSent cur) →
    (∀ c ∈ groupAux evs cur ls, c ≠ []) ∧
    (∀ c ∈ (groupAux evs cur ls).tail, headSent c) ∧
    (∀ c ∈ groupAux evs cur ls, noMidSent c) := by
  induction ls with
  | nil =>
    intro evs cur h1 h2 h3 h4 h5
    by_cases hc : cur = []
    · simpa [groupAux, hc] using ⟨h1, h2, h3⟩
    · simp only [groupAux, if_neg hc]
      refine ⟨?_, ?_, ?_⟩
      · intro c hm
        rcases List.mem_append.mp hm with h | h
        · exact h1 c h
        · rw [List.mem_singleton.mp h]; exact hc
      · match evs with
        | [] => intro c hm; simp at hm
        | a :: evs' =>
          intro c hm
          rw [List.cons_append, List.tail_cons] at hm
          rcases List.mem_append.mp hm with h | h
          · exact h2 c h
          · rw [List.mem_singleton.mp h]
            exact (h5 (by simp)).2
      · intro c hm
        rcases List.mem_append.mp hm with h | h
        · exact h3 c h
        · rw [List.mem_singleton.mp h]; exact h4
  | cons l ls ih =>
    intro evs cur h1 h2 h3 h4 h5
    by_cases h0 : pyStrip l = ""
    · simpa [groupAux, h0] using ih evs cur h1 h2 h3 h4 h5
    · by_cases hs : isSentinel (pyStrip l) ∧ cur ≠ []
      · have hres : groupAux evs cur (l :: ls) = groupAux (evs ++ [cur]) [pyStrip l] ls := by
          simp [groupAux, h0, hs]
        rw [hres]
        apply ih
        · intro c hm
          rcases List.mem_append.mp hm with h | h
          · exact h1 c h
          · rw [List.mem_singleton.mp h]; exact hs.2
        · match evs with
          | [] => intro c hm; simp at hm
          | a :: evs' =>
            intro c hm
            rw [List.cons_append, List.tail_cons] at hm
            rcases List.mem_append.mp hm with h | h
            · exact h2 c h
            · rw [List.mem_singleton.mp h]
              exact (h5 (by simp)).2
        · intro c hm
          rcases List.mem_append.mp hm with h | h
          · exact h3 c h
          · rw [List.mem_singleton.mp h]; exact h4
        · intro x hx; simp at hx
        · intro _
          refine ⟨by simp, ?_⟩
          show isSentinel (pyStrip l) = true
          exact hs.1
      · have hres : groupAux evs cur (l :: ls) = groupAux evs (cur ++ [pyStrip l]) ls := by
          simp [groupAux, h0, hs]
        rw [hres]
        apply ih evs (cur ++ [pyStrip l]) h1 h2 h3
        · intro x hx
          match cur with
          | [] =>
            simp at hx
          | a :: cur' =>
            rw [List.cons_append, List.tail_cons] at hx
            rcases List.mem_append.mp hx with h | h
            · exact h4 x h
            · rw [List.mem_singleton.mp h]
              intro hsent
              exact hs ⟨hsent, by simp⟩
        · intro hne
          rcases h5 hne with ⟨hcne, hch⟩
          refine ⟨by simp, ?_⟩
          match cur, hcne with
          | a :: cur', _ => exact hch

/-- C4 counterexample: non-blank lines preceding the first sentinel are
NOT grouped together with it; `["junk", "PDEQ x"]` yields two chunks, not
the single chunk the claim predicts. -/
theorem c4_counterexample :
    group_events exLinesJunk = [["junk"], ["PDEQ x"]] ∧
    group_events exLinesJunk ≠ [["junk", "PDEQ x"]] := by
  constructor
  · decide
  · decide

/-- C4 (amended): the grouper partitions the stripped non-blank lines in
input order (their concatenation in chunk order is exactly the stripped
non-blank lines); every chunk is non-empty; every chunk after the first
starts with a sentinel line; and within any chunk no line after the first
is a sentinel — so a new chunk starts at every sentinel line, and any
non-blank lines preceding the first sentinel form a first chunk of their
own rather than being grouped with that sentinel. -/
theorem c4_grouper_partition (lines : List String) :
    (group_events lines).flatten = cleanLines lines ∧
    (∀ c ∈ group_events lines, c ≠ []) ∧
    (∀ c ∈ (group_events lines).tail, headSent c) ∧
    (∀ c ∈ group_events lines, noMidSent c) := by
  have hj := groupAux_flatten lines [] []
  have hs := groupAux_struct lines [] []
    (by intro c h; simp at h) (by intro c h; simp at h)
    (by intro c h; simp at h) (by intro x h; simp at h)
    (by intro h; simp at h)
  exact ⟨by simpa [group_events] using hj,
    by simpa [group_events] using hs.1,
    by simpa [group_events] using hs.2.1,
    by simpa [group_events] using hs.2.2⟩

/-- Witness for C4 at a concrete input: in
`["junk", "PDEQ x", "a"]` the second chunk starts with a sentinel line. -/
theorem c4_grouper_partition_witness : headSent ["PDEQ x", "a"] :=
  (c4_grouper_partition ["junk", "PDEQ x", "a"]).2.2.1 ["PDEQ x", "a"] (by decide)

lemma parsePde_wf (env : Env) (parts : List String) (h : Env.wf env) :
    Env.wf (parsePde env parts).1 := by
  unfold parsePde
  repeat' split
  all_goals simp_all [Env.wf]

lemma parsePde_mag_of_none (env : Env) (parts : List String)
    (h : (parsePde env parts).2 = none) : (parsePde env parts).1.mag = env.mag := by
  unfold parsePde at h ⊢
  repeat' split
  all_goals simp_all

lemma parsePde_env_of_some (env : Env) (parts : List String) (f : PdeFields)
    (h : (parsePde env parts).2 = some f) :
    (parsePde env parts).1 =
      ⟨some f.time_str, some f.lat, some f.lon, some f.depth, some f.mag, some f.location⟩ := by
  obtain ⟨t, la, lo, d, m, loc⟩ := f
  unfold parsePde at h ⊢
  repeat' split
  all_goals simp_all

lemma folder_map_ne (s : String) : folder_map s ≠ fallbackName := by
  unfold folder_map fallbackName
  split_ifs <;> simp

lemma fallback_shape (st : RunState) (hwf : Env.wf st.env) :
    (fallback st).env = st.env ∧
    (StepSkip st (fallback st) ∨ StepFallback st (fallback st)) := by
  unfold fallback
  rcases hm : st.env.mag with _ | m
  · simp [hm, StepSkip]
  · have h4 := hwf (by simp [hm])
    rcases ht : st.env.time_str with _ | t
    · rw [ht] at h4; simp at h4
    rcases hla : st.env.lat with _ | la
    · rw [hla] at h4; simp at h4
    rcases hlo : st.env.lon with _ | lo
    · rw [hlo] at h4; simp at h4
    rcases hd : st.env.depth with _ | d
    · rw [hd] at h4; simp at h4
    refine ⟨by simp [hm, ht, hla, hlo, hd], Or.inr ?_⟩
    refine ⟨⟨fallbackName, m, redCircle, some ⟨none, t, m, d, la, lo, none⟩,
      some (lo, la, -d * 1000)⟩, ?_⟩
    simp [hm, ht, hla, hlo, hd, GoodPoint]

lemma step_shape (st : RunState) (i : ℕ) (e : List String) (hwf : Env.wf st.env) :
    Env.wf (process_event st i e).env ∧
    (StepSkip st (process_event st i e) ∨ StepFallback st (process_event st i e) ∨
      StepFm st (process_event st i e)) := by
  unfold process_event
  by_cases h5 : e.length < 5
  · simp [h5, StepSkip, hwf]
  · rw [if_neg h5]
    rcases he0 : e[0]? with _ | pde
    · simp only [he0]
      have hf := fallback_shape st hwf
      exact ⟨hf.1 ▸ hwf, hf.2.imp id Or.inl⟩
    rcases he4 : e[4]? with _ | sdr
    · simp only [he0, he4]
      have hf := fallback_shape st hwf
      exact ⟨hf.1 ▸ hwf, hf.2.imp id Or.inl⟩
    simp only [he0, he4]
    rcases hp : parsePde st.env (splitTokens pde) with ⟨env1, pf⟩
    have hwf1 : Env.wf env1 := by
      have h := parsePde_wf st.env (splitTokens pde) hwf
      rw [hp] at h; exact h
    rcases pf with _ | f
    · simp only []
      have hf := fallback_shape { st with env := env1 } hwf1
      refine ⟨hf.1 ▸ hwf1, hf.2.imp ?_ (fun h => Or.inl h)⟩
      · exact fun h => h
    · rcases hs : sdrOutcome (splitTokens sdr) with _ | sdr3
      · simp only [hs]
        have hf := fallback_shape { st with env := env1 } hwf1
        exact ⟨hf.1 ▸ hwf1, hf.2.imp id Or.inl⟩
      · rcases sdr3 with ⟨⟨strike, dip⟩, rake⟩
        simp only [hs]
        refine ⟨hwf1, Or.inr (Or.inr ?_)⟩
        refine ⟨_, _, rfl, folder_map_ne _, ?_, rfl, rfl, rfl, rfl, rfl⟩
        exact ⟨_, rfl, rfl⟩

lemma fmCount_cons_fb (p : Point) (ps : List Point) (h : p.folder = fallbackName) :
    fmCount (p :: ps) = fmCount ps ∧ fbCount (p :: ps) = fbCount ps + 1 := by
  constructor <;> simp [fmCount, fbCount, List.filter_cons, h]

lemma fmCount_cons_fm (p : Point) (ps : List Point) (h : p.folder ≠ fallbackName) :
    fmCount (p :: ps) = fmCount ps + 1 ∧ fbCount (p :: ps) = fbCount ps := by
  constructor <;> simp [fmCount, fbCount, List.filter_cons, h]

lemma process_all_invariant : ∀ (es : List (List String)) (st : RunState) (i : ℕ),
    Env.wf st.env →
    Env.wf (process_all st i es).env ∧
    ∃ new, (process_all st i es).points = st.points ++ new ∧
      new.length ≤ es.length ∧
      (∀ p ∈ new, GoodPoint p) ∧
      (process_all st i es).with_fm = st.with_fm + fmCount new ∧
      (process_all st i es).without_fm = st.without_fm + fbCount new ∧
      (process_all st i es).skipped = st.skipped + (es.length - new.length) ∧
      (∀ rd ∈ (process_all st i es).renders, rd ∈ st.renders ∨
        rd.facecolor = (classify_and_color_by_rake rd.rake).2) := by
  intro es
  induction es with
  | nil =>
    intro st i hwf
    refine ⟨hwf, [], by simp [process_all], by simp, by simp, ?_, ?_, ?_, ?_⟩
    · simp [process_all, fmCount]
    · simp [process_all, fbCount]
    · simp [process_all]
    · intro rd h; exact Or.inl h
  | cons e es ih =>
    intro st i hwf
    obtain ⟨hwf', hshape⟩ := step_shape st i e hwf
    obtain ⟨hwfall, new1, hpts1, hlen1, hgood1, hwfm1, hwofm1, hskip1, hrend1⟩ :=
      ih (process_event st i e) (i + 1) hwf'
    rw [show process_all st i (e :: es) = process_all (process_event st i e) (i + 1) es
      from rfl] at *
    refine ⟨hwfall, ?_⟩
    rcases hshape with hsk | hfb | hfm
    · obtain ⟨hP, hR, hW, hWo, hS⟩ := hsk
      refine ⟨new1, by rw [hpts1, hP], by simp only [List.length_cons]; omega, hgood1,
        ?_, ?_, ?_, ?_⟩
      · rw [hwfm1, hW]
      · rw [hwofm1, hWo]
      · rw [hskip1, hS]; simp only [List.length_cons]; omega
      · intro rd h
        rcases hrend1 rd h with h' | h'
        · rw [hR] at h'; exact Or.inl h'
        · exact Or.inr h'
    · obtain ⟨p, hP, hfold, hhref, hgood, hR, hW, hWo, hS⟩ := hfb
      obtain ⟨hc1, hc2⟩ := fmCount_cons_fb p new1 hfold
      refine ⟨p :: new1, ?_, by simp only [List.length_cons]; omega, ?_, ?_, ?_, ?_, ?_⟩
      · rw [hpts1, hP]; simp
      · intro q hq
        rcases List.mem_cons.mp hq with h | h
        · rw [h]; exact hgood
        · exact hgood1 q h
      · rw [hwfm1, hW, hc1]
      · rw [hwofm1, hWo, hc2]; omega
      · rw [hskip1, hS]; simp only [List.length_cons]; omega
      · intro rd h
        rcases hrend1 rd h with h' | h'
        · rw [hR] at h'; exact Or.inl h'
        · exact Or.inr h'
    · obtain ⟨p, rd0, hP, hfold, hgood, hR, hcol, hW, hWo, hS⟩ := hfm
      obtain ⟨hc1, hc2⟩ := fmCount_cons_fm p new1 hfold
      refine ⟨p :: new1, ?_, by simp only [List.length_cons]; omega, ?_, ?_, ?_, ?_, ?_⟩
      · rw [hpts1, hP]; simp
      · intro q hq
        rcases List.mem_cons.mp hq with h | h
        · rw [h]; exact hgood
        · exact hgood1 q h
      · rw [hwfm1, hW, hc1]; omega
      · rw [hwofm1, hWo, hc2]
      · rw [hskip1, hS]; simp only [List.length_cons]; omega
      · intro rd h
        rcases hrend1 rd h with h' | h'
        · rw [hR] at h'
          rcases List.mem_append.mp h' with h'' | h''
          · exact Or.inl h''
          · rw [List.mem_singleton.mp h'']; exact Or.inr hcol
        · exact Or.inr h'

lemma process_all_append (es es' : List (List String)) : ∀ (st : RunState) (i : ℕ),
    process_all st i (es ++ es') = process_all (process_all st i es) (i + es.length) es' := by
  induction es with
  | nil => intro st i; simp [process_all]
  | cons e es ih =>
    intro st i
    rw [List.cons_append,
      show process_all st i (e :: (es ++ es')) =
        process_all (process_event st i e) (i + 1) (es ++ es') from rfl,
      ih,
      show process_all st i (e :: es) = process_all (process_event st i e) (i + 1) es
        from rfl]
    congr 1
    simp only [List.length_cons]
    omega

lemma fallback_counter (st : RunState) :
    ((fallback st).with_fm = st.with_fm ∧
      (fallback st).without_fm = st.without_fm + 1 ∧ (fallback st).skipped = st.skipped) ∨
    ((fallback st).with_fm = st.with_fm ∧
      (fallback st).without_fm = st.without_fm ∧ (fallback st).skipped = st.skipped + 1) := by
  unfold fallback
  rcases st.env.mag with _ | m
  · right; exact ⟨rfl, rfl, rfl⟩
  · rcases st.env.time_str with _ | t <;> rcases st.env.depth with _ | d <;>
      rcases st.env.lat with _ | la <;> rcases st.env.lon with _ | lo <;>
      first
        | exact Or.inl ⟨rfl, rfl, rfl⟩
        | exact Or.inr ⟨rfl, rfl, rfl⟩

lemma fallback_points_le (st : RunState) :
    ∃ new, (fallback st).points = st.points ++ new ∧ new.length ≤ 1 ∧
      ∀ p ∈ new, p.folder = fallbackName := by
  unfold fallback
  rcases st.env.mag with _ | m
  · exact ⟨[], by simp, by simp, by simp⟩
  · rcases st.env.time_str with _ | t <;> rcases st.env.depth with _ | d <;>
      rcases st.env.lat with _ | la <;> rcases st.env.lon with _ | lo <;>
      exact ⟨[_], rfl, by simp, by intro p hp; rw [List.mem_singleton.mp hp]⟩

lemma process_event_points_le (st : RunState) (i : ℕ) (e : List String) :
    ∃ new, (process_event st i e).points = st.points ++ new ∧ new.length ≤ 1 := by
  unfold process_event
  by_cases h5 : e.length < 5
  · exact ⟨[], by simp [h5], by simp⟩
  rw [if_neg h5]
  rcases he0 : e[0]? with _ | pde
  · simp only [he0]
    obtain ⟨new, h1, h2, _⟩ := fallback_points_le st
    exact ⟨new, h1, h2⟩
  rcases he4 : e[4]? with _ | sdr
  · simp only [he0, he4]
    obtain ⟨new, h1, h2, _⟩ := fallback_points_le st
    exact ⟨new, h1, h2⟩
  simp only [he0, he4]
  rcases hp : parsePde st.env (splitTokens pde) with ⟨env1, pf⟩
  rcases pf with _ | f
  · obtain ⟨new, h1, h2, _⟩ := fallback_points_le { st with env := env1 }
    exact ⟨new, h1, h2⟩
  rcases hs : sdrOutcome (splitTokens sdr) with _ | sdr3
  · simp only [hs]
    obtain ⟨new, h1, h2, _⟩ := fallback_points_le { st with env := env1 }
    exact ⟨new, h1, h2⟩
  rcases sdr3 with ⟨strike, dip, rake⟩
  simp only [hs]
  exact ⟨[_], rfl, by simp⟩

lemma process_event_one_counter (st : RunState) (i : ℕ) (e : List String) :
    (process_event st i e).with_fm = st.with_fm + 1 ∨
    (process_event st i e).without_fm = st.without_fm + 1 ∨
    (process_event st i e).skipped = st.skipped + 1 := by
  unfold process_event
  by_cases h5 : e.length < 5
  · right; right; simp [h5]
  rw [if_neg h5]
  rcases he0 : e[0]? with _ | pde
  · simp only [he0]
    rcases fallback_counter st with ⟨_, h, _⟩ | ⟨_, _, h⟩
    · exact Or.inr (Or.inl h)
    · exact Or.inr (Or.inr h)
  rcases he4 : e[4]? with _ | sdr
  · simp only [he0, he4]
    rcases fallback_counter st with ⟨_, h, _⟩ | ⟨_, _, h⟩
    · exact Or.inr (Or.inl h)
    · exact Or.inr (Or.inr h)
  simp only [he0, he4]
  rcases hp : parsePde st.env (splitTokens pde) with ⟨env1, pf⟩
  rcases pf with _ | f
  · rcases fallback_counter { st with env := env1 } with ⟨_, h, _⟩ | ⟨_, _, h⟩
    · exact Or.inr (Or.inl h)
    · exact Or.inr (Or.inr h)
  rcases hs : sdrOutcome (splitTokens sdr) with _ | sdr3
  · simp only [hs]
    rcases fallback_counter { st with env := env1 } with ⟨_, h, _⟩ | ⟨_, _, h⟩
    · exact Or.inr (Or.inl h)
    · exact Or.inr (Or.inr h)
  rcases sdr3 with ⟨strike, dip, rake⟩
  simp [hs]

lemma init_wf : Env.wf init_state.env := by
  intro h
  simp [init_state] at h

lemma fmCount_add_fbCount (ps : List Point) : fmCount ps + fbCount ps = ps.length := by
  induction ps with
  | nil => simp [fmCount, fbCount]
  | cons p ps ih =>
    by_cases h : p.folder = fallbackName
    · have := fmCount_cons_fb p ps h
      simp only [List.length_cons]
      omega
    · have := fmCount_cons_fm p ps h
      simp only [List.length_cons]
      omega

lemma getElem?_zero_of_len (e : List String) (h : 5 ≤ e.length) :
    e[0]? = some (e.getD 0 "") := by
  rw [List.getD_eq_getElem?_getD, List.getElem?_eq_getElem (by omega)]
  rfl

lemma getElem?_four_of_len (e : List String) (h : 5 ≤ e.length) :
    e[4]? = some (e.getD 4 "") := by
  rw [List.getD_eq_getElem?_getD, List.getElem?_eq_getElem (by omega)]
  rfl

lemma parsePde_success (env : Env) (parts : List String) (p1 p2 : String)
    (la lo d m : ℚ)
    (h1 : parts[1]? = some p1) (h2 : parts[2]? = some p2)
    (h3 : (parts[3]?).bind pyFloat? = some la)
    (h4 : (parts[4]?).bind pyFloat? = some lo)
    (h5 : (parts[5]?).bind pyFloat? = some d)
    (h7 : (parts[7]?).bind pyFloat? = some m) :
    parsePde env parts =
      (⟨some (p1 ++ " " ++ p2), some la, some lo, some d, some m,
          some (String.intercalate " " (parts.drop 8))⟩,
        some ⟨p1 ++ " " ++ p2, la, lo, d, m, String.intercalate " " (parts.drop 8)⟩) := by
  unfold parsePde
  rw [h1, h2, h3, h4, h5, h7]

lemma sdrOutcome_success (parts : List String) (s dp r : ℚ) (h6 : 6 ≤ parts.length)
    (hs : pyFloat? (parts.getD (parts.length - 6) "") = some s)
    (hd : pyFloat? (parts.getD (parts.length - 5) "") = some dp)
    (hr : pyFloat? (parts.getD (parts.length - 4) "") = some r)
    (hnz : ¬(s = 0 ∧ dp = 0)) :
    sdrOutcome parts = some (s, dp, r) := by
  unfold sdrOutcome
  rw [if_pos h6, hs, hd, hr]
  show (if s = 0 ∧ dp = 0 then none else some (s, dp, r)) = some (s, dp, r)
  rw [if_neg hnz]

lemma sdrOutcome_short (parts : List String) (h : parts.length < 6) :
    sdrOutcome parts = none := by
  unfold sdrOutcome
  rw [if_neg (by omega)]

lemma process_event_parse_fail (st : RunState) (i : ℕ) (e : List String)
    (h5 : 5 ≤ e.length)
    (hp2 : (parsePde st.env (splitTokens (e.getD 0 ""))).2 = none) :
    process_event st i e =
      fallback { st with env := (parsePde st.env (splitTokens (e.getD 0 ""))).1 } := by
  unfold process_event
  rw [if_neg (by omega)]
  simp only [getElem?_zero_of_len e h5, getElem?_four_of_len e h5]
  rw [show parsePde st.env (splitTokens (e.getD 0 "")) =
    ((parsePde st.env (splitTokens (e.getD 0 ""))).1, none) from by rw [← hp2]]

lemma process_event_sdr_fail (st : RunState) (i : ℕ) (e : List String) (f : PdeFields)
    (h5 : 5 ≤ e.length)
    (hp2 : (parsePde st.env (splitTokens (e.getD 0 ""))).2 = some f)
    (hs : sdrOutcome (splitTokens (e.getD 4 "")) = none) :
    process_event st i e =
      fallback { st with env := (parsePde st.env (splitTokens (e.getD 0 ""))).1 } := by
  unfold process_event
  rw [if_neg (by omega)]
  simp only [getElem?_zero_of_len e h5, getElem?_four_of_len e h5]
  rw [show parsePde st.env (splitTokens (e.getD 0 "")) =
    ((parsePde st.env (splitTokens (e.getD 0 ""))).1, some f) from by rw [← hp2]]
  simp only [hs]

lemma process_event_counter_sum (st : RunState) (i : ℕ) (e : List String) :
    (process_event st i e).with_fm + (process_event st i e).without_fm +
      (process_event st i e).skipped = st.with_fm + st.without_fm + st.skipped + 1 := by
  unfold process_event
  by_cases h5 : e.length < 5
  · simp [h5]
    omega
  rw [if_neg h5]
  rcases he0 : e[0]? with _ | pde
  · simp only [he0]
    rcases fallback_counter st with ⟨h1, h2, h3⟩ | ⟨h1, h2, h3⟩ <;>
      rw [h1, h2, h3] <;> omega
  rcases he4 : e[4]? with _ | sdr
  · simp only [he0, he4]
    rcases fallback_counter st with ⟨h1, h2, h3⟩ | ⟨h1, h2, h3⟩ <;>
      rw [h1, h2, h3] <;> omega
  simp only [he0, he4]
  rcases hp : parsePde st.env (splitTokens pde) with ⟨env1, pf⟩
  rcases pf with _ | f
  · rcases fallback_counter { st with env := env1 } with ⟨h1, h2, h3⟩ | ⟨h1, h2, h3⟩ <;>
      rw [h1, h2, h3] <;> simp <;> omega
  rcases hs : sdrOutcome (splitTokens sdr) with _ | sdr3
  · simp only [hs]
    rcases fallback_counter { st with env := env1 } with ⟨h1, h2, h3⟩ | ⟨h1, h2, h3⟩ <;>
      rw [h1, h2, h3] <;> simp <;> omega
  rcases sdr3 with ⟨strike, dip, rake⟩
  simp [hs]
  omega

/-- C1 counterexample: for the chunk whose first-line latitude token is
`BAD` (a numeric field that fails to parse), the run adds NO point at all:
the handler itself fails on the unbound `mag` and the event is counted as
skipped, contradicting "adds exactly one point to the fallback folder". -/
theorem c1_counterexample :
    (group_events exLinesBadLat).length = 1 ∧
    (run_state exLinesBadLat).points = [] ∧
    (run_state exLinesBadLat).skipped = 1 := by
  refine ⟨by decide, by decide, by decide⟩

/-- C1 (amended): for a chunk of at least 5 lines whose first line parses,
any of the listed failures (fewer than 6 tokens on the fifth line, an
unparseable strike/dip/rake token, or strike = dip = 0 — all the cases in
which `sdrOutcome` is `none`) yields exactly one fallback-folder point
with the generic red-circle marker.  When instead a first-line numeric
field is missing or fails to parse, the fallback depends on the `mag`
local: if it was never bound, the handler raises and the chunk is counted
as skipped with no point; if it is bound (by an earlier chunk), exactly
one red-circle fallback point is still added. -/
theorem c1_fallback_artifact :
    (∀ (st : RunState) (i : ℕ) (e : List String) (f : PdeFields), 5 ≤ e.length →
      (parsePde st.env (splitTokens (e.getD 0 ""))).2 = some f →
      sdrOutcome (splitTokens (e.getD 4 "")) = none →
      process_event st i e = { st with
        env := ⟨some f.time_str, some f.lat, some f.lon, some f.depth, some f.mag,
          some f.location⟩,
        points := st.points ++ [⟨fallbackName, f.mag, redCircle,
          some ⟨none, f.time_str, f.mag, f.depth, f.lat, f.lon, none⟩,
          some (f.lon, f.lat, -f.depth * 1000)⟩],
        without_fm := st.without_fm + 1 }) ∧
    (∀ (st : RunState) (i : ℕ) (e : List String), 5 ≤ e.length →
      st.env.mag = none →
      (parsePde st.env (splitTokens (e.getD 0 ""))).2 = none →
      process_event st i e = { st with
        env := (parsePde st.env (splitTokens (e.getD 0 ""))).1,
        skipped := st.skipped + 1 }) ∧
    (∀ (st : RunState) (i : ℕ) (e : List String) (m : ℚ), 5 ≤ e.length →
      Env.wf st.env → st.env.mag = some m →
      (parsePde st.env (splitTokens (e.getD 0 ""))).2 = none →
      ∃ p : Point, p.folder = fallbackName ∧ p.icon_href = redCircle ∧
        (process_event st i e).points = st.points ++ [p] ∧
        (process_event st i e).without_fm = st.without_fm + 1) := by
  refine ⟨?_, ?_, ?_⟩
  · intro st i e f h5 hp2 hsdr
    rw [process_event_sdr_fail st i e f h5 hp2 hsdr,
      parsePde_env_of_some _ _ _ hp2]
    rfl
  · intro st i e h5 hmag hp2
    rw [process_event_parse_fail st i e h5 hp2]
    have hm1 : (parsePde st.env (splitTokens (e.getD 0 ""))).1.mag = none := by
      rw [parsePde_mag_of_none _ _ hp2]; exact hmag
    unfold fallback
    simp only [hm1]
  · intro st i e m h5 hwf hmag hp2
    have hred := process_event_parse_fail st i e h5 hp2
    have hwfX : Env.wf (parsePde st.env (splitTokens (e.getD 0 ""))).1 :=
      parsePde_wf st.env _ hwf
    have hmX : (parsePde st.env (splitTokens (e.getD 0 ""))).1.mag = some m := by
      rw [parsePde_mag_of_none _ _ hp2]; exact hmag
    have h4 := hwfX (by rw [hmX]; rfl)
    rcases Option.isSome_iff_exists.mp h4.1 with ⟨t, ht⟩
    rcases Option.isSome_iff_exists.mp h4.2.1 with ⟨la, hla⟩
    rcases Option.isSome_iff_exists.mp h4.2.2.1 with ⟨lo, hlo⟩
    rcases Option.isSome_iff_exists.mp h4.2.2.2 with ⟨d, hd⟩
    refine ⟨⟨fallbackName, m, redCircle, some ⟨none, t, m, d, la, lo, none⟩,
      some (lo, la, -d * 1000)⟩, rfl, rfl, ?_, ?_⟩
    · rw [hred]
      unfold fallback
      simp only [hmX, ht, hla, hlo, hd]
    · rw [hred]
      unfold fallback
      simp only [hmX, ht, hla, hlo, hd]

/-- Witness for C1 on concrete chunks: the no-focal-mechanism chunk
produces exactly the fallback point, and the bad-latitude chunk (with
`mag` never yet bound) is skipped with only the partial environment
update. -/
theorem c1_fallback_artifact_witness :
    (process_event init_state 0 exLinesNoFM = { init_state with
      env := ⟨some "2020/01/01 00:00:00", some 10, some 20, some 3, some 5, some "LOC"⟩,
      points := init_state.points ++ [⟨fallbackName, 5, redCircle,
        some ⟨none, "2020/01/01 00:00:00", 5, 3, 10, 20, none⟩,
        some (20, 10, -(3 : ℚ) * 1000)⟩],
      without_fm := init_state.without_fm + 1 }) ∧
    (process_event init_state 0 exLinesBadLat = { init_state with
      env := (parsePde init_state.env (splitTokens (exLinesBadLat.getD 0 ""))).1,
      skipped := init_state.skipped + 1 }) :=
  ⟨c1_fallback_artifact.1 init_state 0 exLinesNoFM
      ⟨"2020/01/01 00:00:00", 10, 20, 3, 5, "LOC"⟩ (by decide) (by decide) (by decide),
    c1_fallback_artifact.2.1 init_state 0 exLinesBadLat (by decide) rfl (by decide)⟩

/-- C3: when every fixed-position token of the first and fifth lines
parses (time from tokens 1 and 2, latitude from token 3, longitude from
token 4, depth from token 5, magnitude from token 7, location from tokens
8 onward of the first line; strike, dip, rake from the 6th-, 5th- and
4th-from-last tokens of the fifth line) and the strike/dip pair is not
(0, 0), the chunk produces exactly the placemark and render request built
from those values. -/
theorem c3_fixed_positions (st : RunState) (i : ℕ) (e : List String)
    (p1 p2 : String) (la lo d m s dp r : ℚ)
    (h5 : 5 ≤ e.length)
    (h1 : (splitTokens (e.getD 0 ""))[1]? = some p1)
    (h2 : (splitTokens (e.getD 0 ""))[2]? = some p2)
    (h3 : ((splitTokens (e.getD 0 ""))[3]?).bind pyFloat? = some la)
    (h4 : ((splitTokens (e.getD 0 ""))[4]?).bind pyFloat? = some lo)
    (hdep : ((splitTokens (e.getD 0 ""))[5]?).bind pyFloat? = some d)
    (h7 : ((splitTokens (e.getD 0 ""))[7]?).bind pyFloat? = some m)
    (h6 : 6 ≤ (splitTokens (e.getD 4 "")).length)
    (hs : pyFloat? ((splitTokens (e.getD 4 "")).getD
      ((splitTokens (e.getD 4 "")).length - 6) "") = some s)
    (hdip : pyFloat? ((splitTokens (e.getD 4 "")).getD
      ((splitTokens (e.getD 4 "")).length - 5) "") = some dp)
    (hr : pyFloat? ((splitTokens (e.getD 4 "")).getD
      ((splitTokens (e.getD 4 "")).length - 4) "") = some r)
    (hnz : ¬(s = 0 ∧ dp = 0)) :
    process_event st i e = { st with
      env := ⟨some (p1 ++ " " ++ p2), some la, some lo, some d, some m,
        some (String.intercalate " " ((splitTokens (e.getD 0 "")).drop 8))⟩,
      renders := st.renders ++ [⟨s, dp, r, (classify_and_color_by_rake r).2,
        "assets/event_" ++ toString (i + 1) ++ "_fm.png"⟩],
      points := st.points ++ [⟨folder_map (classify_and_color_by_rake r).1, m,
        "assets/event_" ++ toString (i + 1) ++ "_fm.png",
        some ⟨some (classify_and_color_by_rake r).1, p1 ++ " " ++ p2, m, d, la, lo,
          some (s, dp, r)⟩,
        some (lo, la, -d * 1000)⟩],
      with_fm := st.with_fm + 1 } := by
  unfold process_event
  rw [if_neg (by omega)]
  simp only [getElem?_zero_of_len e h5, getElem?_four_of_len e h5,
    parsePde_success st.env _ p1 p2 la lo d m h1 h2 h3 h4 hdep h7,
    sdrOutcome_success _ s dp r h6 hs hdip hr hnz]

/-- Witness for C3 at the fully well-formed chunk. -/
theorem c3_fixed_positions_witness :
    process_event init_state 0 exLinesGood = { init_state with
      env := ⟨some "2020/01/01 00:00:00", some 10, some 20, some 3, some 5, some "LOC"⟩,
      renders := init_state.renders ++ [⟨45, 60, 90, "red", "assets/event_1_fm.png"⟩],
      points := init_state.points ++ [⟨"Thrust (Reverse)", 5, "assets/event_1_fm.png",
        some ⟨some "Thrust", "2020/01/01 00:00:00", 5, 3, 10, 20, some (45, 60, 90)⟩,
        some (20, 10, -(3 : ℚ) * 1000)⟩],
      with_fm := init_state.with_fm + 1 } :=
  c3_fixed_positions init_state 0 exLinesGood "2020/01/01" "00:00:00" 10 20 3 5 45 60 90
    (by decide) (by decide) (by decide) (by decide) (by decide) (by decide) (by decide)
    (by decide) (by decide) (by decide) (by decide) (by decide)

/-- C5 counterexample: a one-line record is a chunk for which NO output
artifact is emitted, contradicting "exactly one output artifact per
record". -/
theorem c5_counterexample :
    (group_events exLinesShort).length = 1 ∧ (run_state exLinesShort).points = [] := by
  refine ⟨by decide, by decide⟩

/-- C5 (amended): every record yields AT MOST one placemark — appended to
the accumulated list, so the total number of placemarks never exceeds the
number of records — and exactly one output document is written per run;
records that are skipped (fewer than five lines, or a handler failure on
unbound locals) yield no placemark. -/
theorem c5_one_artifact_per_record :
    (∀ (st : RunState) (i : ℕ) (e : List String),
      ∃ new, (process_event st i e).points = st.points ++ new ∧ new.length ≤ 1) ∧
    (∀ lines : List String,
      (runProgram lines).points.length ≤ (group_events lines).length ∧
      (saved_documents lines).length = 1) := by
  refine ⟨process_event_points_le, fun lines => ⟨?_, rfl⟩⟩
  obtain ⟨_, new, hpts, hlen, _⟩ :=
    process_all_invariant (group_events lines) init_state 0 init_wf
  have hrun : (runProgram lines).points = new := by
    show (run_state lines).points = new
    rw [show run_state lines = process_all init_state 0 (group_events lines) from rfl,
      hpts]
    rfl
  rw [hrun]
  exact hlen

/-- C6: validation is exactly the two count checks and they guard the
fixed-position reads: a chunk under five lines is skipped (only the skip
counter changes, no placemark); with at least five lines the first and
fifth line reads are in bounds; and when the fifth line has fewer than six
tokens no fault-type-folder point is ever produced (the strike/dip/rake
token reads are never reached). -/
theorem c6_minimal_validation :
    (∀ (st : RunState) (i : ℕ) (e : List String), e.length < 5 →
      process_event st i e = { st with skipped := st.skipped + 1 }) ∧
    (∀ e : List String, 5 ≤ e.length → (e[0]?).isSome ∧ (e[4]?).isSome) ∧
    (∀ (st : RunState) (i : ℕ) (e : List String), 5 ≤ e.length →
      (splitTokens (e.getD 4 "")).length < 6 →
      ∀ p ∈ (process_event st i e).points, p ∈ st.points ∨ p.folder = fallbackName) := by
  refine ⟨?_, ?_, ?_⟩
  · intro st i e h
    unfold process_event
    rw [if_pos h]
  · intro e h
    constructor
    · rw [List.getElem?_eq_getElem (show 0 < e.length by omega)]; rfl
    · rw [List.getElem?_eq_getElem (show 4 < e.length by omega)]; rfl
  · intro st i e h5 h6 p hp
    rcases hsnd : (parsePde st.env (splitTokens (e.getD 0 ""))).2 with _ | f
    · rw [process_event_parse_fail st i e h5 hsnd] at hp
      obtain ⟨new, h1, h2, h3⟩ :=
        fallback_points_le { st with env := (parsePde st.env (splitTokens (e.getD 0 ""))).1 }
      rw [h1] at hp
      rcases List.mem_append.mp hp with h | h
      · exact Or.inl h
      · exact Or.inr (h3 p h)
    · rw [process_event_sdr_fail st i e f h5 hsnd (sdrOutcome_short _ h6)] at hp
      obtain ⟨new, h1, h2, h3⟩ :=
        fallback_points_le { st with env := (parsePde st.env (splitTokens (e.getD 0 ""))).1 }
      rw [h1] at hp
      rcases List.mem_append.mp hp with h | h
      · exact Or.inl h
      · exact Or.inr (h3 p h)

/-- Witness for C6 on concrete chunks: the one-line chunk is skipped, the
five-line chunk's line reads are in bounds, and the short-fifth-line
chunk's point goes to the fallback folder. -/
theorem c6_minimal_validation_witness :
    (process_event init_state 0 exLinesShort =
      { init_state with skipped := init_state.skipped + 1 }) ∧
    ((exLinesGood[0]?).isSome ∧ (exLinesGood[4]?).isSome) ∧
    (∀ p ∈ (process_event init_state 0 exLinesNoFM).points,
      p ∈ init_state.points ∨ p.folder = fallbackName) :=
  ⟨c6_minimal_validation.1 init_state 0 exLinesShort (by decide),
    c6_minimal_validation.2.1 exLinesGood (by decide),
    c6_minimal_validation.2.2 init_state 0 exLinesNoFM (by decide) (by decide)⟩

/-- C7: processing is total and compositional — the loop processes a
suffix of chunks from whatever state the prefix left, independent of what
happened in the prefix (no exception escapes an iteration); every chunk is
accounted by incrementing one of the three counters (diverted to the
fallback folder, a success, or counted as skipped); and the single output
document is written unconditionally from the final state. -/
theorem c7_exceptions_never_abort :
    (∀ (st : RunState) (i : ℕ) (es es' : List (List String)),
      process_all st i (es ++ es') = process_all (process_all st i es) (i + es.length) es') ∧
    (∀ (st : RunState) (i : ℕ) (e : List String),
      (process_event st i e).with_fm = st.with_fm + 1 ∨
      (process_event st i e).without_fm = st.without_fm + 1 ∨
      (process_event st i e).skipped = st.skipped + 1) ∧
    (∀ lines : List String, saved_documents lines = [kml_save (run_state lines)]) :=
  ⟨fun st i es es' => process_all_append es es' st i, process_event_one_counter,
    fun _ => rfl⟩

/-- C8: every iteration adds exactly one to the sum of the three counters,
and at the end of a run the counters sum to the number of chunks, the
with-FM counter equals the number of fault-type-folder points, the
without-FM counter equals the number of fallback-folder points, and the
skip counter equals the number of chunks that produced no point. -/
theorem c8_counters_partition :
    (∀ (st : RunState) (i : ℕ) (e : List String),
      (process_event st i e).with_fm + (process_event st i e).without_fm +
        (process_event st i e).skipped = st.with_fm + st.without_fm + st.skipped + 1) ∧
    (∀ lines : List String,
      (run_state lines).with_fm + (run_state lines).without_fm +
        (run_state lines).skipped = (group_events lines).length ∧
      (run_state lines).with_fm = fmCount (run_state lines).points ∧
      (run_state lines).without_fm = fbCount (run_state lines).points ∧
      (run_state lines).skipped =
        (group_events lines).length - (run_state lines).points.length) := by
  refine ⟨process_event_counter_sum, fun lines => ?_⟩
  obtain ⟨_, new, hpts, hlen, _, hwfm, hwofm, hskip, _⟩ :=
    process_all_invariant (group_events lines) init_state 0 init_wf
  have hpn : (run_state lines).points = new := by
    rw [show run_state lines = process_all init_state 0 (group_events lines) from rfl,
      hpts]
    rfl
  have hw : (run_state lines).with_fm = fmCount new := by
    rw [show run_state lines = process_all init_state 0 (group_events lines) from rfl,
      hwfm]
    simp [init_state]
  have hwo : (run_state lines).without_fm = fbCount new := by
    rw [show run_state lines = process_all init_state 0 (group_events lines) from rfl,
      hwofm]
    simp [init_state]
  have hsk : (run_state lines).skipped = (group_events lines).length - new.length := by
    rw [show run_state lines = process_all init_state 0 (group_events lines) from rfl,
      hskip]
    simp [init_state]
  have hpart := fmCount_add_fbCount new
  refine ⟨?_, by rw [hw, hpn], by rw [hwo, hpn], by rw [hsk, hpn]⟩
  rw [hw, hwo, hsk]
  omega

/-- C9: the classifier's actual label-color pairs are Normal-green,
Thrust-red, Strike-Slip-blue, Oblique-yellow; the color is the face color
of every render request the run issues; yet the embedded document legend
declares Normal as red, Thrust as blue and Strike-Slip as green. -/
theorem c9_actual_colors :
    (∀ rake : ℚ,
      classify_and_color_by_rake rake = ("Normal", "green") ∨
      classify_and_color_by_rake rake = ("Thrust", "red") ∨
      classify_and_color_by_rake rake = ("Strike-Slip", "blue") ∨
      classify_and_color_by_rake rake = ("Oblique", "yellow")) ∧
    (legendPairs.lookup "Normal" = some "red" ∧
      legendPairs.lookup "Thrust (Reverse)" = some "blue" ∧
      legendPairs.lookup "Strike-Slip" = some "green" ∧
      legendPairs.lookup "Oblique" = some "yellow") ∧
    (∀ (lines : List String) (rd : Render), rd ∈ (run_state lines).renders →
      rd.facecolor = (classify_and_color_by_rake rd.rake).2) := by
  refine ⟨?_, ⟨by decide, by decide, by decide, by decide⟩, ?_⟩
  · intro rake
    unfold classify_and_color_by_rake
    split_ifs <;>
      first
        | exact Or.inl rfl
        | exact Or.inr (Or.inl rfl)
        | exact Or.inr (Or.inr (Or.inl rfl))
        | exact Or.inr (Or.inr (Or.inr rfl))
  · intro lines rd hrd
    obtain ⟨_, new, hpts, hlen, _, _, _, _, hrend⟩ :=
      process_all_invariant (group_events lines) init_state 0 init_wf
    rcases hrend rd hrd with h | h
    · simp [init_state] at h
    · exact h

/-- Witness for C9: the render request issued for the well-formed example
chunk has the classifier color of its own rake. -/
theorem c9_actual_colors_witness :
    (⟨45, 60, 90, "red", "assets/event_1_fm.png"⟩ : Render).facecolor =
      (classify_and_color_by_rake
        (⟨45, 60, 90, "red", "assets/event_1_fm.png"⟩ : Render).rake).2 :=
  c9_actual_colors.2.2 exLinesGood ⟨45, 60, 90, "red", "assets/event_1_fm.png"⟩ (by decide)

/-- C10 counterexample: with a parsed depth of 0 the emitted placemark has
altitude `-0 * 1000 = 0`, so not every event sits strictly below the
surface. -/
theorem c10_counterexample :
    ¬ (∀ p ∈ (runProgram exLinesZeroDepth).points, ∀ c : ℚ × ℚ × ℚ,
        p.coords = some c → c.2.2 < 0) := by
  intro h
  have hmem : exPointZero ∈ (runProgram exLinesZeroDepth).points := by
    rw [show (runProgram exLinesZeroDepth).points = [exPointZero] from rfl]
    exact List.mem_singleton.mpr rfl
  have hlt := h exPointZero hmem (20, 10, -(0 : ℚ) * 1000) rfl
  norm_num at hlt

/-- C10 (amended): every placemark the run emits carries coordinates
`(lon, lat, -depth * 1000)` built from its own description fields — the
parsed depth in kilometres rendered as an altitude of `-depth * 1000`
metres — which is strictly below the surface whenever the parsed depth is
positive. -/
theorem c10_coords_formula (lines : List String) :
    ∀ p ∈ (runProgram lines).points, ∃ dsc : Descr, p.descr = some dsc ∧
      p.coords = some (dsc.lon, dsc.lat, -dsc.depth * 1000) ∧
      (0 < dsc.depth → -dsc.depth * 1000 < 0) := by
  intro p hp
  obtain ⟨_, new, hpts, _, hgood, _⟩ :=
    process_all_invariant (group_events lines) init_state 0 init_wf
  have hrun : (runProgram lines).points = new := by
    show (run_state lines).points = new
    rw [show run_state lines = process_all init_state 0 (group_events lines) from rfl,
      hpts]
    rfl
  rw [hrun] at hp
  obtain ⟨dsc, h1, h2⟩ := hgood p hp
  refine ⟨dsc, h1, h2, fun hd => ?_⟩
  rw [neg_mul, neg_lt_zero]
  exact mul_pos hd (by norm_num)

/-- Witness for C10 at the well-formed example chunk's placemark. -/
theorem c10_coords_formula_witness :
    ∃ dsc : Descr, exPointGood.descr = some dsc ∧
      exPointGood.coords = some (dsc.lon, dsc.lat, -dsc.depth * 1000) ∧
      (0 < dsc.depth → -dsc.depth * 1000 < 0) :=
  c10_coords_formula exLinesGood exPointGood (by
    rw [show (runProgram exLinesGood).points = [exPointGood] from rfl]
    exact List.mem_singleton.mpr rfl)
